import Mathlib

set_option autoImplicit false
set_option linter.unusedTactic false
set_option linter.unreachableTactic false
set_option linter.unusedVariables false

/-!
# Verification of the accounting computation engine

Shallow embedding of the pure computation core of the accounting back end
(`app/services/reporting/*`, `app/services/transaction_fee.py`,
`app/api/reports.py`, `app/api/transactions.py`), together with proofs of
the specification's claims about it.

Monetary values are integers in minor currency units (`Int`); inventory
quantities are exact rationals (`Rat`), idealizing Python's float quantities.
-/

namespace AccountingCore

/-- Account natures, mirroring the string constants in
`app/services/reporting/common.py` (`ASSET`, `LIABILITY`, …). -/
inductive AccountType where
  | ASSET
  | LIABILITY
  | EQUITY
  | REVENUE
  | EXPENSE
  | OTHER
  deriving DecidableEq, Repr

open AccountType

/-- Python's `str.startswith`, on the characters of the strings (kernel-
computable, unlike `String.startsWith`). -/
def codeStartsWith (code pre : String) : Bool :=
  pre.toList.isPrefixOf code.toList

/-- `classify_account_code` from `common.py`: fixed two-digit code ranges
decide the nature; anything unrecognized is `OTHER`. (The embedding takes
the code already stripped of surrounding whitespace, as `c = code.strip()`
produces.) -/
def classifyAccountCode (code : String) : AccountType :=
  if codeStartsWith code "11" || codeStartsWith code "12" || codeStartsWith code "13"
      || codeStartsWith code "14" || codeStartsWith code "15" then ASSET
  else if codeStartsWith code "21" || codeStartsWith code "22" || codeStartsWith code "23"
      || codeStartsWith code "24" then LIABILITY
  else if codeStartsWith code "31" || codeStartsWith code "32"
      || codeStartsWith code "33" then EQUITY
  else if codeStartsWith code "41" || codeStartsWith code "42"
      || codeStartsWith code "43" then REVENUE
  else if codeStartsWith code "51" || codeStartsWith code "52" || codeStartsWith code "53"
      || codeStartsWith code "61" || codeStartsWith code "62" then EXPENSE
  else OTHER

/-- `balance_from_turnovers` from `common.py`: nature-aware net balance.
Debit-natured accounts (assets/expenses, and the fallthrough `OTHER` case)
give `debit − credit`; credit-natured accounts give `credit − debit`. -/
def balanceFromTurnovers (accountType : AccountType) (debitTurnover creditTurnover : Int) : Int :=
  if accountType = ASSET ∨ accountType = EXPENSE then
    debitTurnover - creditTurnover
  else if accountType = LIABILITY ∨ accountType = EQUITY ∨ accountType = REVENUE then
    creditTurnover - debitTurnover
  else
    debitTurnover - creditTurnover

/-- `statement_sign_value` from `common.py`: clamp a raw balance to a
non-negative presentation value for statements (the `account_type` parameter
is unused, as in the source). -/
def statementSignValue (account_type : AccountType) (raw_balance : Int) : Int :=
  max 0 raw_balance

/-! ## Trial balance / general ledger rows (`LedgerService.trial_balance`) -/

/-- One output row of `LedgerService.trial_balance` in `ledger_service.py`. -/
structure TrialBalanceRow where
  debit_turnover : Int
  credit_turnover : Int
  debit_balance : Int
  credit_balance : Int
  deriving DecidableEq, Repr

/-- Row construction from the `trial_balance` loop in `ledger_service.py`:
`net = d_turn - c_turn; dbal = net if net > 0 else 0; cbal = -net if net < 0 else 0`. -/
def mkTrialBalanceRow (d_turn c_turn : Int) : TrialBalanceRow :=
  let net := d_turn - c_turn
  { debit_turnover := d_turn
    credit_turnover := c_turn
    debit_balance := if net > 0 then net else 0
    credit_balance := if net < 0 then -net else 0 }

/-- C1: Trial balance rows use the raw net split independent of account nature:
the turnovers are echoed as-is, `net = d − c`; a non-negative net shows entirely
as a debit balance, a negative net entirely as a credit balance; the example row
(debit 500000, credit 200000) yields debit_balance 300000 and credit_balance 0. -/
theorem trial_balance_raw_net_split (d c : Int) :
    (mkTrialBalanceRow d c).debit_turnover = d ∧
    (mkTrialBalanceRow d c).credit_turnover = c ∧
    (0 ≤ d - c →
      (mkTrialBalanceRow d c).debit_balance = d - c ∧
      (mkTrialBalanceRow d c).credit_balance = 0) ∧
    (d - c < 0 →
      (mkTrialBalanceRow d c).debit_balance = 0 ∧
      (mkTrialBalanceRow d c).credit_balance = c - d) ∧
    mkTrialBalanceRow 500000 200000 =
      { debit_turnover := 500000, credit_turnover := 200000,
        debit_balance := 300000, credit_balance := 0 } := by
  refine ⟨rfl, rfl, ?_, ?_, by decide⟩ <;>
    · intro h
      simp only [mkTrialBalanceRow]
      constructor <;> · split <;> omega

/-- Witness for C1: instantiates the theorem at two concrete rows, one with
non-negative net (5, 3) and one with negative net (2, 9). -/
theorem trial_balance_raw_net_split_witness :
    ((mkTrialBalanceRow 5 3).debit_balance = 2 ∧ (mkTrialBalanceRow 5 3).credit_balance = 0) ∧
    ((mkTrialBalanceRow 2 9).debit_balance = 0 ∧ (mkTrialBalanceRow 2 9).credit_balance = 7) :=
  ⟨(trial_balance_raw_net_split 5 3).2.2.1 (by decide),
   (trial_balance_raw_net_split 2 9).2.2.2.1 (by decide)⟩

/-- C8 counterexample: with the argument swap *and* the negation, the claimed
identity fails already at `nature = ASSET`, `opposite = LIABILITY`, `d = 1`,
`c = 0`: the left side is `1` while the right side is `−1`. -/
theorem balance_sign_symmetry_counterexample :
    ¬ (balanceFromTurnovers ASSET 1 0 = -(balanceFromTurnovers LIABILITY 0 1)) := by
  decide

/-- C8 (amended): nature-aware balance is symmetric under swapping the turnover
arguments together with the nature class (no negation): for every debit-class
nature (asset/expense) and credit-class nature (liability/equity/revenue),
`balance_from_turnovers(nature, d, c) = balance_from_turnovers(opposite, c, d)`.
Equivalently, with the arguments kept in place the balances are negatives:
`balance_from_turnovers(nature, d, c) = −balance_from_turnovers(opposite, d, c)`. -/
theorem balance_sign_symmetry_amended (nature opposite : AccountType)
    (hn : nature = ASSET ∨ nature = EXPENSE)
    (ho : opposite = LIABILITY ∨ opposite = EQUITY ∨ opposite = REVENUE)
    (d c : Int) :
    balanceFromTurnovers nature d c = balanceFromTurnovers opposite c d ∧
    balanceFromTurnovers nature d c = -(balanceFromTurnovers opposite d c) := by
  rcases hn with rfl | rfl <;> rcases ho with rfl | rfl | rfl <;>
    simp [balanceFromTurnovers]

/-- Witness for C8 (amended): asset vs liability at turnovers `d = 7`, `c = 2`. -/
theorem balance_sign_symmetry_amended_witness :
    balanceFromTurnovers ASSET 7 2 = balanceFromTurnovers LIABILITY 2 7 ∧
    balanceFromTurnovers ASSET 7 2 = -(balanceFromTurnovers LIABILITY 7 2) :=
  balance_sign_symmetry_amended ASSET LIABILITY (Or.inl rfl) (Or.inl rfl) 7 2

/-! ## Aging engine

Two bucket shapes exist in the code base. The 3-bucket shape lives in
`app/api/reports.py` (`_bucket_by_age`, `_apply_reduction`, and the
accumulation loop of the dashboard endpoint); the 4-bucket shape lives in
`OperationsReportService.debtor_creditor`
(`operations_report_service.py`, `_aging_bucket` plus the accumulation loop). -/

/-- 3-bucket aging state `{current, days_31_60, days_60_plus}` used by
`app/api/reports.py`. -/
structure Buckets3 where
  current : Int
  days_31_60 : Int
  days_60_plus : Int
  deriving DecidableEq, Repr

/-- `_bucket_by_age` from `app/api/reports.py`. Selects the field of
`Buckets3` matching the age in days. -/
def bucketByAge (days_old : Int) : Buckets3 → Int :=
  if days_old ≤ 30 then Buckets3.current
  else if days_old ≤ 60 then Buckets3.days_31_60
  else Buckets3.days_60_plus

/-- `_apply_reduction` from `app/api/reports.py`: the loop over the key order
`("days_60_plus", "days_31_60", "current")` unrolled, with the early
`if amount <= 0: return` exits. -/
def applyReduction (b : Buckets3) (amount : Int) : Buckets3 :=
  if amount ≤ 0 then b
  else
    let take₀ := min amount b.days_60_plus
    let b₀ : Buckets3 := { b with days_60_plus := b.days_60_plus - take₀ }
    let a₀ := amount - take₀
    if a₀ ≤ 0 then b₀
    else
      let take₁ := min a₀ b₀.days_31_60
      let b₁ : Buckets3 := { b₀ with days_31_60 := b₀.days_31_60 - take₁ }
      let a₁ := a₀ - take₁
      if a₁ ≤ 0 then b₁
      else
        let take₂ := min a₁ b₁.current
        { b₁ with current := b₁.current - take₂ }

/-- Total outstanding amount across the three buckets. -/
def Buckets3.total (b : Buckets3) : Int :=
  b.current + b.days_31_60 + b.days_60_plus

/-- 4-bucket aging state `{current, days_31_60, days_61_90, days_90_plus}` of
`OperationsReportService.debtor_creditor`. -/
structure Buckets4 where
  current : Int
  days_31_60 : Int
  days_61_90 : Int
  days_90_plus : Int
  deriving DecidableEq, Repr

/-- `_aging_bucket` from `operations_report_service.py`, as a field selector. -/
def agingBucket (days_old : Int) : Buckets4 → Int :=
  if days_old ≤ 30 then Buckets4.current
  else if days_old ≤ 60 then Buckets4.days_31_60
  else if days_old ≤ 90 then Buckets4.days_61_90
  else Buckets4.days_90_plus

/-- The per-movement accumulation step of
`OperationsReportService.debtor_creditor`:
`target[entity_id][bucket] += int(delta or 0)` where
`bucket = _aging_bucket(days_old)`. Every delta — positive or negative — is
added directly into the bucket matching the transaction's age. -/
def debtorCreditorApply (b : Buckets4) (days_old : Int) (delta : Int) : Buckets4 :=
  if days_old ≤ 30 then { b with current := b.current + delta }
  else if days_old ≤ 60 then { b with days_31_60 := b.days_31_60 + delta }
  else if days_old ≤ 90 then { b with days_61_90 := b.days_61_90 + delta }
  else { b with days_90_plus := b.days_90_plus + delta }

/-- Total outstanding amount across the four buckets. -/
def Buckets4.total (b : Buckets4) : Int :=
  b.current + b.days_31_60 + b.days_61_90 + b.days_90_plus

/-- C2 counterexample: the claim asserts that in the 4-bucket shape a negative
delta is consumed oldest-first with every bucket clamped at zero ("never
negative"). In `debtor_creditor` a settlement delta of −50 on a transaction
aged 95 days, applied to buckets `{current: 100, 0, 0, 0}`, is added straight
into the 90+ bucket and leaves it at −50 — a negative bucket, and not the
`{current: 50, 0, 0, 0}` oldest-first reduction would produce. -/
theorem aging_reduction_counterexample :
    debtorCreditorApply ⟨100, 0, 0, 0⟩ 95 (-50) = ⟨100, 0, 0, -50⟩ ∧
    (debtorCreditorApply ⟨100, 0, 0, 0⟩ 95 (-50)).days_90_plus < 0 := by
  decide

/-- C2 (amended): oldest-first reduction holds in the 3-bucket shape only.
For non-negative buckets and a non-negative reduction amount,
`_apply_reduction` (a) keeps every bucket non-negative, (b) removes exactly
`min(amount, total)` from the total, so a reduction exceeding the total
outstanding leaves all buckets at zero, and (c) consumes oldest-first: the
current bucket only shrinks once both older buckets are exhausted, and the
31–60 bucket only shrinks once the 60+ bucket is exhausted. The example
`{current: 0, 31_60: 100, 60_plus: 50}` reduced by 120 gives
`{current: 0, 31_60: 30, 60_plus: 0}`. In the 4-bucket shape
(`debtor_creditor`) there is no reduction pass: every delta, negative deltas
included, is added directly into the bucket matching the transaction's age,
so the total always moves by exactly the delta and buckets are not clamped. -/
theorem aging_oldest_first_reduction_amended (b : Buckets3) (amount : Int)
    (hb : 0 ≤ b.current ∧ 0 ≤ b.days_31_60 ∧ 0 ≤ b.days_60_plus)
    (ha : 0 ≤ amount) :
    (0 ≤ (applyReduction b amount).current ∧
      0 ≤ (applyReduction b amount).days_31_60 ∧
      0 ≤ (applyReduction b amount).days_60_plus) ∧
    (applyReduction b amount).total = b.total - min amount b.total ∧
    (b.total ≤ amount →
      applyReduction b amount = ⟨0, 0, 0⟩) ∧
    ((applyReduction b amount).current < b.current →
      (applyReduction b amount).days_31_60 = 0 ∧
      (applyReduction b amount).days_60_plus = 0) ∧
    ((applyReduction b amount).days_31_60 < b.days_31_60 →
      (applyReduction b amount).days_60_plus = 0) ∧
    applyReduction ⟨0, 100, 50⟩ 120 = ⟨0, 30, 0⟩ ∧
    (∀ (b4 : Buckets4) (days_old delta : Int),
      (debtorCreditorApply b4 days_old delta).total = b4.total + delta) := by
  obtain ⟨h1, h2, h3⟩ := hb
  refine ⟨?_, ?_, ?_, ?_, ?_, by decide, ?_⟩
  · obtain ⟨bc, b31, b60⟩ := b
    simp only [applyReduction] at *
    split_ifs <;> (try dsimp only) <;> omega
  · obtain ⟨bc, b31, b60⟩ := b
    simp only [applyReduction, Buckets3.total] at *
    split_ifs <;> (try dsimp only) <;> omega
  · obtain ⟨bc, b31, b60⟩ := b
    simp only [applyReduction, Buckets3.total] at *
    split_ifs <;> (try dsimp only) <;> (try simp only [Buckets3.mk.injEq]) <;> omega
  · obtain ⟨bc, b31, b60⟩ := b
    simp only [applyReduction] at *
    split_ifs <;> (try dsimp only) <;> omega
  · obtain ⟨bc, b31, b60⟩ := b
    simp only [applyReduction] at *
    split_ifs <;> (try dsimp only) <;> omega
  · intro b4 days_old delta
    obtain ⟨c4, b31, b61, b90⟩ := b4
    simp only [debtorCreditorApply, Buckets4.total] at *
    split_ifs <;> dsimp only <;> ring

/-- Witness for C2 (amended): the spec's own example, buckets
`{current: 0, 31_60: 100, 60_plus: 50}` reduced by 120. -/
theorem aging_oldest_first_reduction_amended_witness :
    (0 ≤ (applyReduction ⟨0, 100, 50⟩ 120).current ∧
      0 ≤ (applyReduction ⟨0, 100, 50⟩ 120).days_31_60 ∧
      0 ≤ (applyReduction ⟨0, 100, 50⟩ 120).days_60_plus) ∧
    (applyReduction ⟨0, 100, 50⟩ 120).total = (150 : Int) - min 120 150 :=
  ⟨(aging_oldest_first_reduction_amended ⟨0, 100, 50⟩ 120
      (by decide) (by decide)).1,
   (aging_oldest_first_reduction_amended ⟨0, 100, 50⟩ 120
      (by decide) (by decide)).2.1⟩

/-! ## Cash flow statement (`financial_statement_service.py`) -/

/-- A transaction line as the cash-flow builder sees it: the referenced
account's code plus the debit and credit amounts. -/
structure TxnLine where
  code : String
  debit : Int
  credit : Int
  deriving DecidableEq, Repr

/-- A transaction's line set. -/
abbrev Txn := List TxnLine

/-- The three cash-flow activity sections returned by
`classify_cash_flow_activity` (strings `"operating" | "investing" |
"financing"` in the source). -/
inductive Activity where
  | operating
  | investing
  | financing
  deriving DecidableEq, Repr

/-- `classify_cash_flow_activity` from `financial_statement_service.py`:
investing if any counterparty code starts with `"12"`; otherwise financing if
any counterparty code starts with `"31"` or any counterparty type is equity or
liability; otherwise operating. -/
def classifyCashFlowActivity (accountCodes : List String)
    (accountTypes : List AccountType) : Activity :=
  if accountCodes.any (fun code => codeStartsWith code "12") then .investing
  else if accountCodes.any (fun code => codeStartsWith code "31")
      || accountTypes.any (fun t => t == EQUITY || t == LIABILITY) then .financing
  else .operating

/-- Per-section running nets of `build_cash_flow_statement`
(`section_sums`). -/
structure CashFlowSums where
  operating : Int
  investing : Int
  financing : Int
  deriving DecidableEq, Repr

/-- `section_sums[bucket] += cash_delta`. -/
def addToSection (s : CashFlowSums) (bucket : Activity) (delta : Int) : CashFlowSums :=
  match bucket with
  | .operating => { s with operating := s.operating + delta }
  | .investing => { s with investing := s.investing + delta }
  | .financing => { s with financing := s.financing + delta }

/-- The cash lines of a transaction: lines whose account code starts with the
cash/bank code `"1110"`. -/
def cashLines (txn : Txn) : List TxnLine :=
  txn.filter (fun ln => codeStartsWith ln.code "1110")

/-- The counterparty (non-cash) lines of the transaction. -/
def counterLines (txn : Txn) : List TxnLine :=
  txn.filter (fun ln => !(codeStartsWith ln.code "1110"))

/-- `cash_delta = sum(debit − credit over the cash lines)`. -/
def cashDelta (txn : Txn) : Int :=
  ((cashLines txn).map (fun ln => ln.debit - ln.credit)).sum

/-- One iteration of the transaction loop in `build_cash_flow_statement`:
skip the transaction when it has no cash lines or a zero cash delta, otherwise
classify the counterparty lines and accumulate the delta into the matching
section. -/
def processCashFlowTxn (s : CashFlowSums) (txn : Txn) : CashFlowSums :=
  let cash := cashLines txn
  if cash.isEmpty then s
  else
    let delta := (cash.map (fun ln => ln.debit - ln.credit)).sum
    if delta = 0 then s
    else
      let counter := counterLines txn
      let bucket := classifyCashFlowActivity (counter.map (fun ln => ln.code))
        (counter.map (fun ln => classifyAccountCode ln.code))
      addToSection s bucket delta

/-- C3: cash-flow classification applies its checks in a fixed order over the
counterparty lines — any code starting `"12"` forces investing; otherwise a
code starting `"31"` or an equity/liability type forces financing; otherwise
operating. Counterparty codes `"1210"` and `"3110"` therefore classify as
investing, and a transaction whose cash delta is zero leaves the section sums
untouched. -/
theorem cash_flow_classification (codes : List String) (types : List AccountType)
    (s : CashFlowSums) (txn : Txn) :
    (codes.any (fun code => codeStartsWith code "12") = true →
      classifyCashFlowActivity codes types = Activity.investing) ∧
    (codes.any (fun code => codeStartsWith code "12") = false →
      (codes.any (fun code => codeStartsWith code "31")
          || types.any (fun t => t == EQUITY || t == LIABILITY)) = true →
      classifyCashFlowActivity codes types = Activity.financing) ∧
    (codes.any (fun code => codeStartsWith code "12") = false →
      (codes.any (fun code => codeStartsWith code "31")
          || types.any (fun t => t == EQUITY || t == LIABILITY)) = false →
      classifyCashFlowActivity codes types = Activity.operating) ∧
    classifyCashFlowActivity ["1210", "3110"]
      [classifyAccountCode "1210", classifyAccountCode "3110"] = Activity.investing ∧
    (cashDelta txn = 0 → processCashFlowTxn s txn = s) := by
  refine ⟨?_, ?_, ?_, by decide, ?_⟩
  · intro h
    simp [classifyCashFlowActivity, h]
  · intro h12 hfin
    simp [classifyCashFlowActivity, h12, hfin]
  · intro h12 hfin
    simp only [Bool.or_eq_false_iff] at hfin
    simp [classifyCashFlowActivity, h12, hfin.1, hfin.2]
  · intro h
    simp only [cashDelta] at h
    simp only [processCashFlowTxn]
    split_ifs <;> rfl

/-- Witness for C3: a payment with cash line 1110 and counterparty 1210
(classified investing), plus a zero-delta transaction left untouched. -/
theorem cash_flow_classification_witness :
    classifyCashFlowActivity ["1210"] [classifyAccountCode "1210"] = Activity.investing ∧
    processCashFlowTxn ⟨1, 2, 3⟩ [⟨"1110", 5, 5⟩, ⟨"1210", 0, 0⟩] = ⟨1, 2, 3⟩ :=
  ⟨(cash_flow_classification ["1210"] [classifyAccountCode "1210"] ⟨1, 2, 3⟩ []).1 (by decide),
   (cash_flow_classification ["1210"] [classifyAccountCode "1210"] ⟨1, 2, 3⟩
      [⟨"1110", 5, 5⟩, ⟨"1210", 0, 0⟩]).2.2.2.2 (by decide)⟩

/-! ## Income statement (`build_income_statement`) -/

/-- An account with its period turnovers, as `build_income_statement` consumes
it (the account's nature is derived from its code). -/
structure IncomeAccount where
  code : String
  debit : Int
  credit : Int
  deriving DecidableEq, Repr

/-- `amount = max(0, balance_from_turnovers(acc_type, tb.debit, tb.credit))`:
the nature-aware period balance clamped to zero. -/
def incomeAmount (a : IncomeAccount) : Int :=
  max 0 (balanceFromTurnovers (classifyAccountCode a.code) a.debit a.credit)

/-- The income-statement category chain of `build_income_statement`:
revenue nature → revenues; else code "51…" → COGS; else "61…" → operating
expenses; else "62…" or expense nature → other expenses; else the account is
not listed. -/
inductive IncomeCategory where
  | revenues
  | cogs
  | operating_expenses
  | other_expenses
  | unlisted
  deriving DecidableEq, Repr

/-- The `if/elif` categorization chain of `build_income_statement`. -/
def incomeCategory (code : String) : IncomeCategory :=
  if classifyAccountCode code = REVENUE then .revenues
  else if codeStartsWith code "51" then .cogs
  else if codeStartsWith code "61" then .operating_expenses
  else if codeStartsWith code "62" || classifyAccountCode code = EXPENSE then .other_expenses
  else .unlisted

/-- The clamped amounts listed in one section: accounts of the category whose
clamped amount is non-zero (`if amount == 0: continue`). -/
def sectionItems (cat : IncomeCategory) (accounts : List IncomeAccount) : List Int :=
  (accounts.filter (fun a => incomeCategory a.code == cat && incomeAmount a != 0)).map
    incomeAmount

/-- The `totals` dictionary of `build_income_statement`. -/
structure IncomeTotals where
  revenue : Int
  cogs : Int
  operating_expenses : Int
  other_expenses : Int
  gross_profit : Int
  net_profit : Int
  deriving DecidableEq, Repr

/-- `build_income_statement` from `financial_statement_service.py`, reduced to
its totals: section sums of clamped amounts, `gross_profit = revenue − cogs`,
`net_profit = gross_profit − operating − other`. -/
def buildIncomeStatement (accounts : List IncomeAccount) : IncomeTotals :=
  let total_revenue := (sectionItems .revenues accounts).sum
  let total_cogs := (sectionItems .cogs accounts).sum
  let total_opex := (sectionItems .operating_expenses accounts).sum
  let total_other_exp := (sectionItems .other_expenses accounts).sum
  { revenue := total_revenue
    cogs := total_cogs
    operating_expenses := total_opex
    other_expenses := total_other_exp
    gross_profit := total_revenue - total_cogs
    net_profit := total_revenue - total_cogs - total_opex - total_other_exp }

/-- C4: every account's contribution to the income statement is its
nature-aware period balance clamped at zero — never negative, and zero whenever
the nature-aware balance is negative (the expense account `6110` with debit 0
and credit 50000 contributes 0 to operating expenses) — and the totals satisfy
`gross_profit = revenue − cogs` and
`net_profit = gross_profit − operating_expenses − other_expenses`. -/
theorem income_statement_clamp_and_totals (a : IncomeAccount)
    (accounts : List IncomeAccount) :
    0 ≤ incomeAmount a ∧
    (balanceFromTurnovers (classifyAccountCode a.code) a.debit a.credit < 0 →
      incomeAmount a = 0) ∧
    (buildIncomeStatement [⟨"6110", 0, 50000⟩]).operating_expenses = 0 ∧
    (buildIncomeStatement accounts).gross_profit =
      (buildIncomeStatement accounts).revenue - (buildIncomeStatement accounts).cogs ∧
    (buildIncomeStatement accounts).net_profit =
      (buildIncomeStatement accounts).gross_profit -
        (buildIncomeStatement accounts).operating_expenses -
        (buildIncomeStatement accounts).other_expenses := by
  refine ⟨le_max_left 0 _, ?_, by decide, rfl, ?_⟩
  · intro h
    simp only [incomeAmount]
    omega
  · simp only [buildIncomeStatement]

/-- Witness for C4: the spec's clamp example, the expense account `6110` with
debit 0 and credit 50000 (nature-aware balance −50000) contributes 0. -/
theorem income_statement_clamp_and_totals_witness :
    incomeAmount ⟨"6110", 0, 50000⟩ = 0 :=
  (income_statement_clamp_and_totals ⟨"6110", 0, 50000⟩ []).2.1 (by decide)

/-! ## Inventory costing engine (`inventory_report_service.py`)

Quantities are exact rationals, idealizing the float quantities of the source;
monetary values are integers. `round` is Python's built-in round — round half
to even. -/

/-- Python's built-in `round` on an exact rational: nearest integer, ties to
the even neighbour. -/
def pyRound (q : ℚ) : ℤ :=
  let f := ⌊q⌋
  let frac := q - (f : ℚ)
  if frac < 1 / 2 then f
  else if 1 / 2 < frac then f + 1
  else if f % 2 = 0 then f else f + 1

/-- The inventory movement types (`InventoryMovementType`). -/
inductive MovementType where
  | IN
  | OUT
  | ADJUSTMENT
  deriving DecidableEq, Repr

/-- `ItemAccumulator` from `inventory_report_service.py`. -/
structure ItemAccumulator where
  qty_in : ℚ
  qty_out : ℚ
  on_hand : ℚ
  inventory_value : ℤ
  cogs : ℤ
  deriving DecidableEq, Repr

/-- The `avg_cost` property: `round(inventory_value / on_hand)` when
`on_hand > 0`, else 0 (the source tests `on_hand <= 0` first). -/
def ItemAccumulator.avg_cost (acc : ItemAccumulator) : ℤ :=
  if acc.on_hand ≤ 0 then 0
  else pyRound ((acc.inventory_value : ℚ) / acc.on_hand)

/-- `apply_inventory_movement` from `inventory_report_service.py`. Movements
with non-positive quantity are ignored; IN and ADJUSTMENT add stock at the
given valuation; OUT consumes at the movement's unit cost when positive and at
the current average cost otherwise, flooring `on_hand` and `inventory_value`
at zero. (In the source the accumulator is mutated in place; `qty_out` is
increased before the effective cost is read, which leaves `avg_cost`
unaffected since it only reads `on_hand` and `inventory_value`.) -/
def applyInventoryMovement (acc : ItemAccumulator) (movement_type : MovementType)
    (quantity : ℚ) (unit_cost : ℤ) : ItemAccumulator :=
  let qty := quantity
  let cost := unit_cost
  if qty ≤ 0 then acc
  else
    match movement_type with
    | .IN =>
        { acc with
          qty_in := acc.qty_in + qty
          on_hand := acc.on_hand + qty
          inventory_value := acc.inventory_value + pyRound (qty * (cost : ℚ)) }
    | .OUT =>
        let use_cost := if cost > 0 then cost else acc.avg_cost
        let cogs_value := pyRound (qty * (use_cost : ℚ))
        { acc with
          qty_out := acc.qty_out + qty
          cogs := acc.cogs + cogs_value
          on_hand := max 0 (acc.on_hand - qty)
          inventory_value := max 0 (acc.inventory_value - cogs_value) }
    | .ADJUSTMENT =>
        { acc with
          qty_in := acc.qty_in + qty
          on_hand := acc.on_hand + qty
          inventory_value := acc.inventory_value + pyRound (qty * (cost : ℚ)) }

/-- C5: an OUT movement with positive quantity adds the quantity to `qty_out`,
consumes at the movement's unit cost when positive and otherwise at the current
average cost (`round(inventory_value / on_hand)` when `on_hand > 0`, else 0),
adds `round(qty × effective_cost)` to COGS, and floors both `on_hand` and
`inventory_value` at zero — over-consumption is absorbed silently. -/
theorem inventory_out_movement (acc : ItemAccumulator) (qty : ℚ) (cost : ℤ)
    (h : 0 < qty) :
    (applyInventoryMovement acc .OUT qty cost).qty_out = acc.qty_out + qty ∧
    (applyInventoryMovement acc .OUT qty cost).qty_in = acc.qty_in ∧
    (applyInventoryMovement acc .OUT qty cost).cogs =
      acc.cogs + pyRound (qty * ((if 0 < cost then cost else acc.avg_cost : ℤ) : ℚ)) ∧
    (applyInventoryMovement acc .OUT qty cost).on_hand = max 0 (acc.on_hand - qty) ∧
    (applyInventoryMovement acc .OUT qty cost).inventory_value =
      max 0 (acc.inventory_value -
        pyRound (qty * ((if 0 < cost then cost else acc.avg_cost : ℤ) : ℚ))) ∧
    (acc.on_hand ≤ 0 → acc.avg_cost = 0) ∧
    (0 < acc.on_hand →
      acc.avg_cost = pyRound ((acc.inventory_value : ℚ) / acc.on_hand)) := by
  have hq : ¬ qty ≤ 0 := not_le.mpr h
  refine ⟨?_, ?_, ?_, ?_, ?_, ?_, ?_⟩ <;>
    simp only [applyInventoryMovement, ItemAccumulator.avg_cost, if_neg hq]
  · intro hh
    rw [if_pos hh]
  · intro hh
    rw [if_neg (not_le.mpr hh)]

/-- Witness for C5: from stock of 10 units valued 1500 (average cost 150), an
OUT of 4 units at unit cost 0 books `round(4 × 150) = 600` of COGS and leaves
6 units valued 900. -/
theorem inventory_out_movement_witness :
    (applyInventoryMovement ⟨10, 0, 10, 1500, 0⟩ .OUT 4 0).qty_out = 0 + 4 ∧
    (applyInventoryMovement ⟨10, 0, 10, 1500, 0⟩ .OUT 4 0).cogs =
      0 + pyRound (4 * ((if (0 : ℤ) < 0 then (0 : ℤ)
        else ItemAccumulator.avg_cost ⟨10, 0, 10, 1500, 0⟩ : ℤ) : ℚ)) ∧
    (applyInventoryMovement ⟨10, 0, 10, 1500, 0⟩ .OUT 4 0).on_hand = max 0 (10 - 4) ∧
    (applyInventoryMovement ⟨10, 0, 10, 1500, 0⟩ .OUT 4 0).inventory_value =
      max 0 (1500 - pyRound (4 * ((if (0 : ℤ) < 0 then (0 : ℤ)
        else ItemAccumulator.avg_cost ⟨10, 0, 10, 1500, 0⟩ : ℤ) : ℚ))) :=
  ⟨(inventory_out_movement ⟨10, 0, 10, 1500, 0⟩ 4 0 (by norm_num)).1,
   (inventory_out_movement ⟨10, 0, 10, 1500, 0⟩ 4 0 (by norm_num)).2.2.1,
   (inventory_out_movement ⟨10, 0, 10, 1500, 0⟩ 4 0 (by norm_num)).2.2.2.1,
   (inventory_out_movement ⟨10, 0, 10, 1500, 0⟩ 4 0 (by norm_num)).2.2.2.2.1⟩

/-! ## Boundary validation of transaction creation (`app/api/transactions.py`) -/

/-- One line of a transaction-create payload (`TransactionLineCreate`): account
code plus non-negative debit and credit amounts. -/
structure PayloadLine where
  account_code : String
  debit : ℕ
  credit : ℕ
  deriving DecidableEq, Repr

/-- A transaction-create payload, reduced to its lines. -/
structure TransactionPayload where
  lines : List PayloadLine
  deriving DecidableEq, Repr

/-- A persisted transaction, reduced to its lines. -/
structure StoredTransaction where
  lines : List PayloadLine
  deriving DecidableEq, Repr

/-- `total_debit = sum(l.debit for l in lines_data)`. -/
def totalDebit (p : TransactionPayload) : ℕ :=
  (p.lines.map (fun l => l.debit)).sum

/-- `total_credit = sum(l.credit for l in lines_data)`. -/
def totalCredit (p : TransactionPayload) : ℕ :=
  (p.lines.map (fun l => l.credit)).sum

/-- The error raised by the boundary validator
(`HTTPException(400, "Debits (…) must equal credits (…)")`). -/
inductive CreateTransactionError where
  | unbalanced (total_debit total_credit : ℕ)
  deriving DecidableEq, Repr

/-- `_create_transaction_from_payload` from `app/api/transactions.py`, as a
state transformer on the list of persisted transactions: the debit/credit sums
are compared before anything is added, so on the unbalanced error the state is
returned unchanged; otherwise the transaction with its lines is appended. -/
def createTransactionFromPayload (db : List StoredTransaction)
    (p : TransactionPayload) :
    List StoredTransaction × Option CreateTransactionError :=
  let total_debit := totalDebit p
  let total_credit := totalCredit p
  if total_debit ≠ total_credit then
    (db, some (.unbalanced total_debit total_credit))
  else
    (db ++ [{ lines := p.lines }], none)

/-- C9: creating a transaction whose lines have unequal debit and credit sums
fails with the unbalanced error and leaves the persisted state unchanged;
when the sums are equal, creation proceeds and appends exactly the payload's
transaction. -/
theorem create_transaction_boundary_validation (db : List StoredTransaction)
    (p : TransactionPayload) :
    (totalDebit p ≠ totalCredit p →
      createTransactionFromPayload db p =
        (db, some (.unbalanced (totalDebit p) (totalCredit p)))) ∧
    (totalDebit p = totalCredit p →
      createTransactionFromPayload db p = (db ++ [{ lines := p.lines }], none)) := by
  constructor
  · intro h
    simp only [createTransactionFromPayload, if_pos h]
  · intro h
    simp only [createTransactionFromPayload, h]
    simp

/-- Witness for C9: an unbalanced payload (10 vs 4) is rejected with the state
unchanged, and a balanced two-line payload (7 = 7) is persisted. -/
theorem create_transaction_boundary_validation_witness :
    createTransactionFromPayload [] ⟨[⟨"1110", 10, 0⟩, ⟨"4110", 0, 4⟩]⟩ =
      ([], some (.unbalanced 10 4)) ∧
    createTransactionFromPayload [] ⟨[⟨"1110", 7, 0⟩, ⟨"4110", 0, 7⟩]⟩ =
      ([] ++ [{ lines := [⟨"1110", 7, 0⟩, ⟨"4110", 0, 7⟩] }], none) :=
  ⟨(create_transaction_boundary_validation [] ⟨[⟨"1110", 10, 0⟩, ⟨"4110", 0, 4⟩]⟩).1
      (by decide),
   (create_transaction_boundary_validation [] ⟨[⟨"1110", 7, 0⟩, ⟨"4110", 0, 7⟩]⟩).2
      (by decide)⟩

/-! ## Fee computation engine (`app/services/transaction_fee.py`)

Monetary values are integers in minor units. The percent fee
`round(base * (percent_bps / 10_000))` is modelled over exact rationals with
Python's round-half-to-even. Python's `while lo <= hi` binary-search loop is
embedded with an explicit fuel counter; the callers pass enough fuel that the
fuel never runs out (the interval shrinks by at least one per iteration). -/

/-- `FeeType` from `app/models/transaction_fee.py`. -/
inductive FeeType where
  | FREE
  | FLAT
  | PERCENT
  | HYBRID
  deriving DecidableEq, Repr

/-- A `TransactionFee` rule row, reduced to the fields the fee math reads. -/
structure FeeRule where
  fee_type : FeeType
  fee_value : ℤ
  flat_fee : ℤ
  percent_bps : ℤ
  max_fee : Option ℤ
  deriving DecidableEq, Repr

/-- `_effective_fee_values`: the `(flat_fee, percent_bps)` pair actually used,
with legacy `fee_value` fallbacks per fee type. -/
def effectiveFeeValues (rule : FeeRule) : ℤ × ℤ :=
  let flat_fee := max 0 rule.flat_fee
  let percent_bps := max 0 rule.percent_bps
  if rule.fee_type = .FLAT then
    (if flat_fee = 0 then max 0 rule.fee_value else flat_fee, 0)
  else if rule.fee_type = .PERCENT then
    (0, if percent_bps = 0 then max 0 rule.fee_value else percent_bps)
  else if rule.fee_type = .HYBRID then
    (if flat_fee = 0 ∧ percent_bps = 0 ∧ rule.fee_value > 0 then max 0 rule.fee_value
      else flat_fee,
     percent_bps)
  else (0, 0)

/-- `fee_amount_for_base`: `(fee, cap_applied)` for a base amount —
`percent_fee = round(base × bps / 10000)`; flat, percent or hybrid
composition; optional cap. -/
def feeAmountForBase (base_amount : ℤ) (rule : FeeRule) : ℤ × Bool :=
  let base := max 0 base_amount
  if rule.fee_type = .FREE then (0, false)
  else
    let v := effectiveFeeValues rule
    let percent_fee := pyRound ((base : ℚ) * ((v.2 : ℚ) / 10000))
    let fee := if rule.fee_type = .FLAT then v.1
      else if rule.fee_type = .PERCENT then percent_fee
      else v.1 + percent_fee
    match rule.max_fee with
    | none => (max 0 fee, false)
    | some mf =>
        let cap := max 0 mf
        if fee > cap then (max 0 cap, true) else (max 0 fee, false)

/-- `_gross_for_base`: `base + fee(base)`. -/
def grossForBase (base : ℤ) (rule : FeeRule) : ℤ :=
  base + (feeAmountForBase base rule).1

/-- The `while lo <= hi` binary-search loop of `_solve_base_from_gross`, with
fuel. Returns `(mid, true)` on an exact hit (`total == gross`), and
`(best, false)` when the loop exhausts the interval, where `best` is the
largest base seen with `total < gross`. (`(lo + hi) // 2` is written with
Lean's `/`, which agrees with Python's floor division because `lo + hi ≥ 0`
on every reachable state.) -/
def solveLoop (rule : FeeRule) (gross : ℤ) : ℕ → ℤ → ℤ → ℤ → ℤ × Bool
  | 0, _lo, _hi, best => (best, false)
  | fuel + 1, lo, hi, best =>
    if lo ≤ hi then
      let mid := (lo + hi) / 2
      let total := grossForBase mid rule
      if total = gross then (mid, true)
      else if total < gross then solveLoop rule gross fuel (mid + 1) hi mid
      else solveLoop rule gross fuel lo (mid - 1) best
    else (best, false)

/-- The `for base in range(start, end + 1)` refinement scan of
`_solve_base_from_gross`, with fuel: keeps the base with the strictly
smallest `|total − gross|`, returning early when that distance hits zero. -/
def scanLoop (rule : FeeRule) (gross : ℤ) : ℕ → ℤ → ℤ → ℤ → ℤ → ℤ
  | 0, _base, _stop, nearest, _nd => nearest
  | fuel + 1, base, stop, nearest, nd =>
    if base > stop then nearest
    else
      let delta := |grossForBase base rule - gross|
      if delta < nd then
        if delta = 0 then base
        else scanLoop rule gross fuel (base + 1) stop base delta
      else scanLoop rule gross fuel (base + 1) stop nearest nd

/-- `_solve_base_from_gross`: clamp the gross, return it directly for zero or
free rules, otherwise binary-search `[0, gross]` and refine with a
`±10,000` linear scan around the best base found. -/
def solveBaseFromGross (gross_amount : ℤ) (rule : FeeRule) : ℤ :=
  let gross := max 0 gross_amount
  if gross = 0 ∨ rule.fee_type = .FREE then gross
  else
    match solveLoop rule gross (gross + 1).toNat 0 gross 0 with
    | (mid, true) => mid
    | (best, false) =>
        let start := max 0 (best - 10000)
        let stop := min gross (best + 10000)
        scanLoop rule gross (stop + 1 - start).toNat start stop best
          |grossForBase best rule - gross|

/-- The two accepted amount modes of `calculate_total_with_fee` (any other
input is normalized to `"net"` by the source before this logic runs). -/
inductive AmountMode where
  | net
  | gross
  deriving DecidableEq, Repr

/-- The `FeeComputation` result dataclass. -/
structure FeeComputation where
  amount_mode : AmountMode
  input_amount : ℤ
  base_amount : ℤ
  fee_amount : ℤ
  gross_amount : ℤ
  net_amount : ℤ
  applied_cap : Bool
  deriving DecidableEq, Repr

/-- `calculate_total_with_fee`: in net mode the fee is added on top of the
base; in gross mode the base is solved from the gross and any residual
(`gross − (base + fee)`) is absorbed into the fee. -/
def calculateTotalWithFee (amount : ℤ) (rule : FeeRule) (mode : AmountMode) :
    FeeComputation :=
  let input_amount := max 0 amount
  match mode with
  | .gross =>
      let gross := input_amount
      let base := solveBaseFromGross gross rule
      let r := feeAmountForBase base rule
      let exact := base + r.1
      let fee := if exact ≠ gross then max 0 (r.1 + (gross - exact)) else r.1
      { amount_mode := .gross
        input_amount := input_amount
        base_amount := base
        fee_amount := fee
        gross_amount := gross
        net_amount := base
        applied_cap := r.2 }
  | .net =>
      let base := input_amount
      let r := feeAmountForBase base rule
      { amount_mode := .net
        input_amount := input_amount
        base_amount := base
        fee_amount := r.1
        gross_amount := base + r.1
        net_amount := base
        applied_cap := r.2 }

/-- `pyRound` stays between the floor and the floor plus one. -/
lemma pyRound_bounds (q : ℚ) : ⌊q⌋ ≤ pyRound q ∧ pyRound q ≤ ⌊q⌋ + 1 := by
  simp only [pyRound]
  split_ifs <;> omega

/-- Round-half-to-even is monotone. -/
lemma pyRound_mono {x y : ℚ} (h : x ≤ y) : pyRound x ≤ pyRound y := by
  have hfl : ⌊x⌋ ≤ ⌊y⌋ := Int.floor_mono h
  rcases lt_or_eq_of_le hfl with hlt | heq
  · have hx := (pyRound_bounds x).2
    have hy := (pyRound_bounds y).1
    omega
  · simp only [pyRound, ← heq]
    have h1 : x - (⌊x⌋ : ℚ) ≤ y - (⌊x⌋ : ℚ) := by linarith
    split_ifs <;> first | omega | linarith

/-- Both effective fee components are non-negative. -/
lemma effectiveFeeValues_nonneg (rule : FeeRule) :
    0 ≤ (effectiveFeeValues rule).1 ∧ 0 ≤ (effectiveFeeValues rule).2 := by
  simp only [effectiveFeeValues]
  split_ifs <;> constructor <;> dsimp only <;> omega

/-- The computed fee is never negative. -/
lemma feeAmountForBase_nonneg (b : ℤ) (rule : FeeRule) :
    0 ≤ (feeAmountForBase b rule).1 := by
  rcases hmf : rule.max_fee with _ | mf <;>
    simp only [feeAmountForBase, hmf] <;>
    split_ifs <;> dsimp only <;> omega

/-- The fee is monotone non-decreasing in the base, for every rule shape
(flat and hybrid parts are constant, the percent part is a monotone rounding
of a monotone function, and capping preserves monotonicity). -/
lemma feeAmountForBase_mono (rule : FeeRule) {b1 b2 : ℤ} (h : b1 ≤ b2) :
    (feeAmountForBase b1 rule).1 ≤ (feeAmountForBase b2 rule).1 := by
  have hv2 : (0 : ℤ) ≤ (effectiveFeeValues rule).2 := (effectiveFeeValues_nonneg rule).2
  have hcast : ((max 0 b1 : ℤ) : ℚ) ≤ ((max 0 b2 : ℤ) : ℚ) := by
    exact_mod_cast (by omega : (max 0 b1 : ℤ) ≤ max 0 b2)
  have hquot : (0 : ℚ) ≤ ((effectiveFeeValues rule).2 : ℚ) / 10000 :=
    div_nonneg (by exact_mod_cast hv2) (by norm_num)
  have hpf :
      pyRound (((max 0 b1 : ℤ) : ℚ) * (((effectiveFeeValues rule).2 : ℤ) : ℚ) / 10000) ≤
        pyRound (((max 0 b2 : ℤ) : ℚ) * (((effectiveFeeValues rule).2 : ℤ) : ℚ) / 10000) := by
    apply pyRound_mono
    rw [mul_div_assoc, mul_div_assoc]
    exact mul_le_mul_of_nonneg_right hcast hquot
  rcases hmf : rule.max_fee with _ | mf <;>
    simp only [feeAmountForBase, hmf, mul_div_assoc] at * <;>
    split_ifs <;> dsimp only <;> omega

/-- `base + fee(base)` is strictly increasing in the base. -/
lemma grossForBase_strictMono (rule : FeeRule) {b1 b2 : ℤ} (h : b1 < b2) :
    grossForBase b1 rule < grossForBase b2 rule := by
  have := feeAmountForBase_mono rule (le_of_lt h)
  simp only [grossForBase]
  omega

/-- The binary-search loop stays inside `[0, gross]` when started there. -/
lemma solveLoop_bounds (rule : FeeRule) (gross : ℤ) :
    ∀ (fuel : ℕ) (lo hi best : ℤ), 0 ≤ lo → hi ≤ gross → 0 ≤ best → best ≤ gross →
      0 ≤ (solveLoop rule gross fuel lo hi best).1 ∧
        (solveLoop rule gross fuel lo hi best).1 ≤ gross := by
  intro fuel
  induction fuel with
  | zero =>
    intro lo hi best h1 h2 h3 h4
    simpa [solveLoop] using ⟨h3, h4⟩
  | succ n ih =>
    intro lo hi best h1 h2 h3 h4
    simp only [solveLoop]
    split_ifs with hlh hexact hlt
    · constructor <;> dsimp only <;> omega
    · exact ih ((lo + hi) / 2 + 1) hi ((lo + hi) / 2) (by omega) h2 (by omega) (by omega)
    · exact ih lo ((lo + hi) / 2 - 1) best h1 (by omega) h3 h4
    · exact ⟨h3, h4⟩

/-- The refinement scan stays inside `[0, gross]` when started there. -/
lemma scanLoop_bounds (rule : FeeRule) (gross : ℤ) :
    ∀ (fuel : ℕ) (base stop nearest nd : ℤ),
      0 ≤ nearest → nearest ≤ gross → 0 ≤ base → stop ≤ gross →
      0 ≤ scanLoop rule gross fuel base stop nearest nd ∧
        scanLoop rule gross fuel base stop nearest nd ≤ gross := by
  intro fuel
  induction fuel with
  | zero =>
    intro base stop nearest nd h1 h2 h3 h4
    simpa [scanLoop] using ⟨h1, h2⟩
  | succ n ih =>
    intro base stop nearest nd h1 h2 h3 h4
    simp only [scanLoop]
    split_ifs with hstop hlt hzero
    · exact ⟨h1, h2⟩
    · exact ⟨h3, by omega⟩
    · exact ih (base + 1) stop base _ h3 (by omega) (by omega) h4
    · exact ih (base + 1) stop nearest nd h1 h2 (by omega) h4

/-- The solved base lies in `[0, clamped gross]` for every rule. -/
lemma solveBaseFromGross_bounds (g : ℤ) (rule : FeeRule) :
    0 ≤ solveBaseFromGross g rule ∧ solveBaseFromGross g rule ≤ max 0 g := by
  simp only [solveBaseFromGross]
  split_ifs with h
  · exact ⟨le_max_left 0 g, le_refl _⟩
  · have hb := solveLoop_bounds rule (max 0 g) (max 0 g + 1).toNat 0 (max 0 g) 0
      (le_refl 0) (le_refl _) (le_refl 0) (le_max_left 0 g)
    rcases hres : solveLoop rule (max 0 g) (max 0 g + 1).toNat 0 (max 0 g) 0 with ⟨v, b⟩
    rw [hres] at hb
    cases b
    · dsimp only
      exact scanLoop_bounds rule (max 0 g) _ _ _ v _
        hb.1 hb.2 (le_max_left 0 _) (min_le_left _ _)
    · exact hb

/-- When the fee is strictly monotone in total and an exact solution exists in
`[lo, hi]`, the binary search returns it (given enough fuel: the interval
shrinks by at least one each iteration). -/
lemma solveLoop_exact (rule : FeeRule) (gross a : ℤ)
    (hexact : grossForBase a rule = gross) :
    ∀ (fuel : ℕ) (lo hi best : ℤ), lo ≤ a → a ≤ hi → (hi + 1 - lo).toNat ≤ fuel →
      solveLoop rule gross fuel lo hi best = (a, true) := by
  intro fuel
  induction fuel with
  | zero =>
    intro lo hi best hla hah hfuel
    omega
  | succ n ih =>
    intro lo hi best hla hah hfuel
    have hlh : lo ≤ hi := le_trans hla hah
    have hmidlo : lo ≤ (lo + hi) / 2 := by omega
    have hmidhi : (lo + hi) / 2 ≤ hi := by omega
    simp only [solveLoop, if_pos hlh]
    split_ifs with h1 h2
    · have hmid : (lo + hi) / 2 = a := by
        rcases lt_trichotomy ((lo + hi) / 2) a with hc | hc | hc
        · have := grossForBase_strictMono rule hc
          omega
        · exact hc
        · have := grossForBase_strictMono rule hc
          omega
      rw [hmid]
    · have hmida : (lo + hi) / 2 < a := by
        by_contra hc
        push_neg at hc
        rcases eq_or_lt_of_le hc with hc' | hc'
        · exact h1 (by rw [← hc']; exact hexact)
        · have := grossForBase_strictMono rule hc'
          omega
      exact ih ((lo + hi) / 2 + 1) hi ((lo + hi) / 2) (by omega) hah (by omega)
    · have hmida : a < (lo + hi) / 2 := by
        by_contra hc
        push_neg at hc
        rcases eq_or_lt_of_le hc with hc' | hc'
        · exact h1 (by rw [hc']; exact hexact)
        · have := grossForBase_strictMono rule hc'
          omega
      exact ih lo ((lo + hi) / 2 - 1) best hla (by omega) (by omega)

/-- C6: in gross mode, for every non-negative requested gross and every fee
rule, the result reconstructs the gross exactly: `base_amount + fee_amount =
gross` and the reported `gross_amount` is the requested amount. The base comes
out of the `[0, gross]` binary search plus `±10,000` refinement scan (so it
never exceeds the gross), and the residual is absorbed into the fee. -/
theorem fee_gross_mode_exact (g : ℤ) (rule : FeeRule) (h : 0 ≤ g) :
    (calculateTotalWithFee g rule .gross).base_amount +
      (calculateTotalWithFee g rule .gross).fee_amount = g ∧
    (calculateTotalWithFee g rule .gross).gross_amount = g := by
  have hmax : max 0 g = g := max_eq_right h
  have hb := solveBaseFromGross_bounds g rule
  rw [hmax] at hb
  have hfee := feeAmountForBase_nonneg (solveBaseFromGross g rule) rule
  simp only [calculateTotalWithFee, hmax]
  refine ⟨?_, by trivial⟩
  dsimp only
  split_ifs with hne
  · omega
  · omega

/-- Witness for C6: the spec's example — percent rule of 100 bps, requested
gross 1,010,000 — reconstructs the gross exactly. -/
theorem fee_gross_mode_exact_witness :
    (calculateTotalWithFee 1010000 ⟨.PERCENT, 0, 0, 100, none⟩ .gross).base_amount +
      (calculateTotalWithFee 1010000 ⟨.PERCENT, 0, 0, 100, none⟩ .gross).fee_amount
      = 1010000 ∧
    (calculateTotalWithFee 1010000 ⟨.PERCENT, 0, 0, 100, none⟩ .gross).gross_amount
      = 1010000 :=
  fee_gross_mode_exact 1010000 ⟨.PERCENT, 0, 0, 100, none⟩ (by norm_num)

/-- C7: fee round-trip — for every non-negative amount and every uncapped
flat, percent or hybrid rule, computing in net mode and then feeding the
resulting gross back in gross mode recovers the original base exactly
(the total `base + fee(base)` is strictly increasing, so the binary search
hits the unique exact solution). -/
theorem fee_round_trip (a : ℤ) (rule : FeeRule) (ha : 0 ≤ a)
    (hcap : rule.max_fee = none)
    (htype : rule.fee_type = .FLAT ∨ rule.fee_type = .PERCENT ∨ rule.fee_type = .HYBRID) :
    (calculateTotalWithFee (calculateTotalWithFee a rule .net).gross_amount
      rule .gross).base_amount = a := by
  have hfree : rule.fee_type ≠ .FREE := by
    rcases htype with h | h | h <;> simp [h]
  have hfa := feeAmountForBase_nonneg a rule
  have hnet : (calculateTotalWithFee a rule .net).gross_amount =
      a + (feeAmountForBase a rule).1 := by
    simp only [calculateTotalWithFee, max_eq_right ha]
  have hg0 : 0 ≤ a + (feeAmountForBase a rule).1 := by omega
  have hsolve : solveBaseFromGross (a + (feeAmountForBase a rule).1) rule = a := by
    simp only [solveBaseFromGross, max_eq_right hg0]
    by_cases hz : a + (feeAmountForBase a rule).1 = 0
    · rw [if_pos (Or.inl hz)]
      omega
    · rw [if_neg (by
        rintro (hc | hc)
        · exact hz hc
        · exact hfree hc)]
      have hexact : grossForBase a rule = a + (feeAmountForBase a rule).1 := rfl
      rw [solveLoop_exact rule (a + (feeAmountForBase a rule).1) a hexact
        (a + (feeAmountForBase a rule).1 + 1).toNat 0 (a + (feeAmountForBase a rule).1) 0
        ha (by omega) (by omega)]
  rw [hnet]
  simp only [calculateTotalWithFee, max_eq_right hg0, hsolve]

/-- Witness for C7: net-then-gross on amount 1,000,000 with the uncapped
percent rule of 100 bps recovers the base 1,000,000. -/
theorem fee_round_trip_witness :
    (calculateTotalWithFee
      (calculateTotalWithFee 1000000 ⟨.PERCENT, 0, 0, 100, none⟩ .net).gross_amount
      ⟨.PERCENT, 0, 0, 100, none⟩ .gross).base_amount = 1000000 :=
  fee_round_trip 1000000 ⟨.PERCENT, 0, 0, 100, none⟩ (by norm_num) rfl
    (Or.inr (Or.inl rfl))

/-! ## Balance sheet (`build_balance_sheet` and `_rollup_account_tree`)

`_rollup_account_tree` walks the acyclic parent→children index built from the
account list; the embedding represents that index directly as a rose
tree/forest (the documented acyclicity assumption). Each node carries its
account code and its cumulative debit/credit turnovers up to the report
date. -/

mutual
/-- An account node of the parent→children index: code, cumulative turnovers,
child accounts. -/
inductive AccTree where
  | mk (code : String) (debit : Int) (credit : Int) (children : AccForest)
/-- A list of sibling account subtrees. -/
inductive AccForest where
  | nil
  | cons (t : AccTree) (rest : AccForest)
end

/-- The per-account own amount `build_balance_sheet` feeds into the roll-up:
`statement_sign_value(acc_type, balance_from_turnovers(acc_type, debit,
credit))` — the nature-aware cumulative balance clamped at zero. -/
def ownBalanceSheetAmount (code : String) (debit credit : Int) : Int :=
  statementSignValue (classifyAccountCode code)
    (balanceFromTurnovers (classifyAccountCode code) debit credit)

mutual
/-- `walk` from `_rollup_account_tree`, applied to the clamped own balances:
rolled total = own amount + sum of the children's rolled totals. -/
def rolledTotal : AccTree → Int
  | .mk code debit credit children =>
      ownBalanceSheetAmount code debit credit + rolledTotalForest children
/-- Sum of the rolled totals of a forest of children. -/
def rolledTotalForest : AccForest → Int
  | .nil => 0
  | .cons t rest => rolledTotal t + rolledTotalForest rest
end

mutual
/-- A `StatementAccountNode` of the balance-sheet response: account code,
rolled balance, included children. -/
inductive SNode where
  | mk (code : String) (balance : Int) (children : SForest)
/-- A list of sibling statement nodes. -/
inductive SForest where
  | nil
  | cons (n : SNode) (rest : SForest)
end

/-- The balance carried by a statement node. -/
def SNode.balance : SNode → Int
  | .mk _ b _ => b

/-- Whether a statement forest is empty (`not children_nodes`). -/
def SForest.isNil : SForest → Bool
  | .nil => true
  | .cons _ _ => false

mutual
/-- `build` from `_build_section_tree`: include a node when its own nature
matches the section or it has at least one qualifying descendant; its balance
is the rolled total of its whole subtree (`totals.get(acc.id)`). -/
def buildSectionNode (sectionType : AccountType) : AccTree → Option SNode
  | .mk code debit credit children =>
      let children_nodes := buildSectionForest sectionType children
      if classifyAccountCode code ≠ sectionType ∧ children_nodes.isNil = true then none
      else some (.mk code (rolledTotal (.mk code debit credit children)) children_nodes)
/-- `_build_section_tree` over a forest of siblings: keep the included
nodes. -/
def buildSectionForest (sectionType : AccountType) : AccForest → SForest
  | .nil => .nil
  | .cons t rest =>
      match buildSectionNode sectionType t with
      | none => buildSectionForest sectionType rest
      | some n => .cons n (buildSectionForest sectionType rest)
end

/-- `_sum_nodes`: sum of the balances of the root-level nodes only. -/
def rootBalancesSum : SForest → Int
  | .nil => 0
  | .cons n rest => n.balance + rootBalancesSum rest

/-- A section's `total` in `build_balance_sheet`: the root-level sum of the
section tree built from the account roots. -/
def sectionTotal (sectionType : AccountType) (roots : AccForest) : Int :=
  rootBalancesSum (buildSectionForest sectionType roots)

mutual
/-- Every balance in a statement node's subtree is non-negative. -/
def SNode.allNonneg : SNode → Bool
  | .mk _ b children => decide (0 ≤ b) && SForest.allNonneg children
/-- Every balance in a statement forest is non-negative. -/
def SForest.allNonneg : SForest → Bool
  | .nil => true
  | .cons n rest => SNode.allNonneg n && SForest.allNonneg rest
end

mutual
/-- Rolled totals of clamped own balances are non-negative. -/
theorem rolledTotal_nonneg : ∀ t : AccTree, 0 ≤ rolledTotal t
  | .mk code debit credit children => by
      have h := rolledTotalForest_nonneg children
      simp only [rolledTotal, ownBalanceSheetAmount, statementSignValue]
      omega
/-- Sums of rolled totals over a forest are non-negative. -/
theorem rolledTotalForest_nonneg : ∀ f : AccForest, 0 ≤ rolledTotalForest f
  | .nil => le_refl 0
  | .cons t rest => by
      have h1 := rolledTotal_nonneg t
      have h2 := rolledTotalForest_nonneg rest
      simp only [rolledTotalForest]
      omega
end

mutual
/-- Every node a section tree includes carries only non-negative balances. -/
theorem buildSectionNode_allNonneg :
    ∀ (sect : AccountType) (t : AccTree) (n : SNode),
      buildSectionNode sect t = some n → SNode.allNonneg n = true
  | sect, .mk code debit credit children, n => by
      intro h
      simp only [buildSectionNode] at h
      split_ifs at h
      have hn : SNode.mk code (rolledTotal (.mk code debit credit children))
          (buildSectionForest sect children) = n := Option.some.inj h
      rw [← hn]
      simp only [SNode.allNonneg, Bool.and_eq_true, decide_eq_true_eq]
      exact ⟨rolledTotal_nonneg _, buildSectionForest_allNonneg sect children⟩
/-- Every balance in a built section forest is non-negative. -/
theorem buildSectionForest_allNonneg :
    ∀ (sect : AccountType) (f : AccForest),
      SForest.allNonneg (buildSectionForest sect f) = true
  | sect, .nil => rfl
  | sect, .cons t rest => by
      simp only [buildSectionForest]
      rcases hb : buildSectionNode sect t with _ | n
      · exact buildSectionForest_allNonneg sect rest
      · simp only [SForest.allNonneg, Bool.and_eq_true]
        exact ⟨buildSectionNode_allNonneg sect t n hb, buildSectionForest_allNonneg sect rest⟩
end

/-- A forest of non-negative balances has a non-negative root-level sum. -/
theorem rootBalancesSum_nonneg :
    ∀ f : SForest, SForest.allNonneg f = true → 0 ≤ rootBalancesSum f
  | .nil, _ => le_refl 0
  | .cons (.mk code b children) rest, h => by
      simp only [SForest.allNonneg, SNode.allNonneg, Bool.and_eq_true,
        decide_eq_true_eq] at h
      have h2 := rootBalancesSum_nonneg rest h.2
      simp only [rootBalancesSum, SNode.balance]
      omega

/-- C10: the balance sheet clamps each account's own nature-aware cumulative
balance to `max(0, balance)` via `statement_sign_value` before rolling it up
the account tree, so every rolled account total, every node included in a
section tree, and every section total is non-negative — negative nature-aware
balances are silently dropped from the balance sheet. -/
theorem balance_sheet_nonneg (t : AccTree) (f : AccForest) (sect : AccountType)
    (n : SNode) (h : buildSectionNode sect t = some n) :
    0 ≤ rolledTotal t ∧
    SNode.allNonneg n = true ∧
    0 ≤ sectionTotal sect f :=
  ⟨rolledTotal_nonneg t,
   buildSectionNode_allNonneg sect t n h,
   rootBalancesSum_nonneg _ (buildSectionForest_allNonneg sect f)⟩

/-- Witness for C10: a single asset account `1110` with cumulative debit 5 and
credit 3 builds into the assets section as a node of balance 2. -/
theorem balance_sheet_nonneg_witness :
    0 ≤ rolledTotal (.mk "1110" 5 3 .nil) ∧
    SNode.allNonneg (.mk "1110" 2 .nil) = true ∧
    0 ≤ sectionTotal ASSET (.cons (.mk "1110" 5 3 .nil) .nil) :=
  balance_sheet_nonneg (.mk "1110" 5 3 .nil) (.cons (.mk "1110" 5 3 .nil) .nil)
    ASSET (.mk "1110" 2 .nil) (by rfl)

end AccountingCore
